import Mathlib

/-!
Verification development for the descriptor-multiplexing core of libssh
(`poll.c`): the poll-event / poll-context data model, the attach / detach /
resize lifecycle, the dispatch cycle, the forced-notification teardown, and
the emulated Wait Primitive (the Windows fallback built on
`WaitForMultipleObjectsEx`).

The C code is shallowly embedded: the two parallel arrays of a context are
Lean lists, machine integers are `Int`/`Nat`, reallocation outcomes are
explicit boolean parameters, callbacks are explicit state-transforming
functions, and the blocking platform wait is an oracle parameter.  Loops
whose termination depends on callback behaviour take an explicit fuel
argument and return `Option`; `none` marks fuel exhaustion and is never
relied upon by any theorem.
-/

/-- Raw poll record, mirroring `pollfd_t`: descriptor, requested event mask,
returned event mask. -/
structure Pollfd where
  fd : Int
  events : Int
  revents : Int
deriving DecidableEq, Repr

/-- Default raw record used for out-of-range reads of the backing stores. -/
def pd0 : Pollfd := ⟨0, 0, 0⟩

/-- Poll event, mirroring `struct ssh_poll`.  The C `union { socket_t fd;
size_t idx; }` is a single integer cell `fd_idx`: it holds the raw
descriptor while the event is detached and the slot index while it is
attached, exactly as the union does.  `ctx` is the back-reference to the
owning context (a context identifier), `none` when detached.  The callback
and its opaque data are represented by identifiers; the dispatch and
teardown loops receive the actual callback behaviour as a function
parameter keyed on the event. -/
structure SSH_POLL where
  ctx : Option Nat
  fd_idx : Int
  events : Int
  cb : Nat
  cb_data : Int
deriving DecidableEq, Repr

/-- Poll context, mirroring `struct ssh_poll_ctx`: the two parallel backing
stores (`pollptrs` holds event identifiers, `pollfds` the raw records),
the allocated capacity, the live count and the growth granularity.  The
lists always have length `polls_allocated`; only the first `polls_used`
entries are live. -/
structure SSH_POLL_CTX where
  pollptrs : List Nat
  pollfds : List Pollfd
  polls_allocated : Nat
  polls_used : Nat
  chunk_size : Nat
deriving DecidableEq, Repr

/-- The whole mutable state visible to the poll core: the heap of poll
events (an event identifier is an index into `events`) together with one
poll context and its identifier.  All claims concern operations on a
single context, so one context suffices; `cid` is the value stored into an
event's back-reference on attach. -/
structure World where
  events : List SSH_POLL
  cid : Nat
  ctx : SSH_POLL_CTX
deriving DecidableEq, Repr

/-- Read an event from the heap (out-of-range reads yield a detached dummy,
they never occur in the verified scenarios). -/
def getEvt (w : World) (pid : Nat) : SSH_POLL :=
  w.events.getD pid ⟨none, 0, 0, 0, 0⟩

/-- Write an event back into the heap. -/
def setEvt (w : World) (pid : Nat) (e : SSH_POLL) : World :=
  { w with events := w.events.set pid e }

/-- Raw record of the context's backing store at slot `i`. -/
def pollfdAt (w : World) (i : Nat) : Pollfd :=
  w.ctx.pollfds.getD i pd0

/-- Event identifier of the context's backing store at slot `i`. -/
def ptrAt (w : World) (i : Nat) : Nat :=
  w.ctx.pollptrs.getD i 0

/-- Model of `ctx->pollfds[i].revents = 0`. -/
def clearReventsAt (w : World) (i : Nat) : World :=
  { w with ctx := { w.ctx with
      pollfds := w.ctx.pollfds.set i { pollfdAt w i with revents := 0 } } }

/-- Model of one `realloc` on a backing list: the block is resized to `n`
cells, the contents are preserved up to `min n (old length)` and fresh
cells are uninitialised (modelled by the default `d`). -/
def resizeList {α : Type} (l : List α) (n : Nat) (d : α) : List α :=
  (l ++ List.replicate (n - l.length) d).take n

/-- Model of `ssh_poll_new`: a fresh detached event; the union cell holds
the descriptor. -/
def ssh_poll_new (fd events : Int) (cb : Nat) (cb_data : Int) : SSH_POLL :=
  { ctx := none, fd_idx := fd, events := events, cb := cb, cb_data := cb_data }

/-- Built-in chunk default `SSH_POLL_CTX_CHUNK`. -/
def SSH_POLL_CTX_CHUNK : Nat := 5

/-- Model of `ssh_poll_ctx_new`: an empty context; a zero chunk size selects
the built-in default. -/
def ssh_poll_ctx_new (chunk_size : Nat) : SSH_POLL_CTX :=
  { pollptrs := [], pollfds := [],
    polls_allocated := 0, polls_used := 0,
    chunk_size := if chunk_size = 0 then SSH_POLL_CTX_CHUNK else chunk_size }

/-- Model of `ssh_poll_ctx_resize`.  `ok1` and `ok2` state whether the
`realloc` of `pollptrs` respectively `pollfds` succeeds (the source cannot
observe this, so it is a parameter of the model); the best-effort rollback
`realloc` back down to the previous capacity is modelled as succeeding,
matching the shrink-never-fails expectation spelled out by the code.
On full success both stores are resized and the capacity is committed;
on any failure `-1` is returned and the capacity and live count keep their
previous values. -/
def ssh_poll_ctx_resize (ok1 ok2 : Bool) (ctx : SSH_POLL_CTX) (new_size : Nat) :
    Int × SSH_POLL_CTX :=
  if !ok1 then
    (-1, ctx)
  else
    let pollptrs := resizeList ctx.pollptrs new_size 0
    if !ok2 then
      (-1, { ctx with pollptrs := resizeList pollptrs ctx.polls_allocated 0 })
    else
      (0, { ctx with
              pollptrs := pollptrs,
              pollfds := resizeList ctx.pollfds new_size pd0,
              polls_allocated := new_size })

/-- Model of `ssh_poll_ctx_add`.  An event that already carries a context
back-reference is rejected with `-1` and nothing is mutated.  Otherwise the
context grows by one chunk when full (reallocations succeed, as in every
claimed scenario), the event is appended at index `polls_used`, its
descriptor and mask are copied into the raw record with `revents` cleared,
the union cell switches to the slot index and the back-reference is set. -/
def ssh_poll_ctx_add (w : World) (pid : Nat) : Int × World :=
  let p := getEvt w pid
  if p.ctx.isSome then
    (-1, w)
  else
    let r :=
      if w.ctx.polls_used = w.ctx.polls_allocated then
        ssh_poll_ctx_resize true true w.ctx
          (w.ctx.polls_allocated + w.ctx.chunk_size)
      else
        (0, w.ctx)
    if r.1 < 0 then
      (-1, w)
    else
      let w1 := { w with ctx := r.2 }
      let fd := p.fd_idx
      let idx : Nat := w1.ctx.polls_used
      let w2 := setEvt w1 pid { p with fd_idx := (idx : Int), ctx := some w1.cid }
      let ctx := { w2.ctx with
        pollptrs := w2.ctx.pollptrs.set idx pid,
        pollfds := w2.ctx.pollfds.set idx ⟨fd, p.events, 0⟩,
        polls_used := idx + 1 }
      (0, { w2 with ctx := ctx })

/-- Model of `ssh_poll_ctx_remove`, translated line by line: the slot index
is read from the union cell, the descriptor is restored into the union cell
from the raw record, the back-reference is cleared, the live count drops,
and when the vacated slot was not the last live one the last live record
and pointer are copied into it.  Exactly as in the source, the moved
event's own stored index is NOT touched.  Finally the context shrinks by
one chunk when the slack strictly exceeds the chunk size (the return value
of the resize is ignored, as in the source). -/
def ssh_poll_ctx_remove (w : World) (pid : Nat) : World :=
  let p := getEvt w pid
  let i := p.fd_idx.toNat
  let fdv := (pollfdAt w i).fd
  let w1 := setEvt w pid { p with fd_idx := fdv, ctx := none }
  let used := w1.ctx.polls_used - 1
  let ctx1 := { w1.ctx with polls_used := used }
  let ctx2 :=
    if 0 < used ∧ used ≠ i then
      { ctx1 with
        pollfds := ctx1.pollfds.set i (ctx1.pollfds.getD used pd0),
        pollptrs := ctx1.pollptrs.set i (ctx1.pollptrs.getD used 0) }
    else
      ctx1
  let ctx3 :=
    if ctx2.chunk_size < ctx2.polls_allocated - ctx2.polls_used then
      (ssh_poll_ctx_resize true true ctx2 (ctx2.polls_allocated - ctx2.chunk_size)).2
    else
      ctx2
  { w1 with ctx := ctx3 }

/-- Behaviour of the poll callbacks: given the current world, the event
identifier being notified, the descriptor and the returned-events value, it
yields the callback's integer result and the world after whatever the
callback did (it may attach or detach events).  This stands for invoking
`p->cb(p, fd, revents, p->cb_data)`: the behaviour receives the event, so
per-event callbacks and their opaque data are subsumed. -/
def CbBehavior : Type := World → Nat → Int → Int → Int × World

/-- The `POLLERR` readiness bit used by the forced-notification teardown. -/
def POLLERR : Int := 8

/-- The walk of `ssh_poll_ctx` over the ready set, translated from the
source loop `for (i = 0; i < used && rc > 0; )`.  A slot with empty
returned-events is skipped without consuming the counter; otherwise the
callback runs: a negative result keeps the index and re-reads the live
count from the context, any other result clears the slot's returned-events
and advances, and the counter drops in both cases.  `fuel` bounds the
number of iterations; exhaustion yields `none`. -/
def ssh_poll_ctx_loop (cb : CbBehavior) :
    Nat → World → Nat → Nat → Int → Option (Int × World)
  | 0, _, _, _, _ => none
  | fuel + 1, w, i, used, rc =>
    if i < used ∧ 0 < rc then
      if (pollfdAt w i).revents = 0 then
        ssh_poll_ctx_loop cb fuel w (i + 1) used rc
      else
        let pid := ptrAt w i
        let res := cb w pid (pollfdAt w i).fd (pollfdAt w i).revents
        if res.1 < 0 then
          ssh_poll_ctx_loop cb fuel res.2 i res.2.ctx.polls_used (rc - 1)
        else
          ssh_poll_ctx_loop cb fuel (clearReventsAt res.2 i) (i + 1) used (rc - 1)
    else
      some (rc, w)

/-- The Wait Primitive as seen by the dispatch cycle: raw records, live
count and timeout in, return code and updated raw records out.  It is a
parameter because the platform supplies it (`ssh_poll`). -/
def WaitFn : Type := List Pollfd → Nat → Int → Int × List Pollfd

/-- Model of `ssh_poll_ctx`, the dispatch cycle: an empty context returns 0
at once without touching the Wait Primitive or any callback; otherwise the
Wait Primitive runs over the live raw records and a positive return value
starts the walk. -/
def ssh_poll_ctx (waitFn : WaitFn) (cb : CbBehavior) (fuel : Nat)
    (w : World) (timeout : Int) : Option (Int × World) :=
  if w.ctx.polls_used = 0 then
    some (0, w)
  else
    let res := waitFn w.ctx.pollfds w.ctx.polls_used timeout
    let w1 := { w with ctx := { w.ctx with pollfds := res.2 } }
    if 0 < res.1 then
      ssh_poll_ctx_loop cb fuel w1 0 w1.ctx.polls_used res.1
    else
      some (res.1, w1)

/-- The forced-notification sweep of `ssh_poll_ctx_free`, translated from
the source loop: each visited slot's callback runs with `POLLERR`; a
negative result re-reads the live count without advancing, any other
result advances.  The returned list is the trace of notified event
identifiers, in order. -/
def ssh_poll_ctx_free_loop (cb : CbBehavior) :
    Nat → World → Nat → Nat → Option (List Nat × World)
  | 0, _, _, _ => none
  | fuel + 1, w, i, used =>
    if i < used then
      let pid := ptrAt w i
      let res := cb w pid (pollfdAt w i).fd POLLERR
      if res.1 < 0 then
        (ssh_poll_ctx_free_loop cb fuel res.2 i res.2.ctx.polls_used).map
          (fun r => (pid :: r.1, r.2))
      else
        (ssh_poll_ctx_free_loop cb fuel res.2 (i + 1) used).map
          (fun r => (pid :: r.1, r.2))
    else
      some ([], w)

/-- Model of `ssh_poll_ctx_free`: when anything was ever allocated, the
forced-notification sweep runs, then both backing stores are released
(modelled by emptying them).  The result carries the notification trace. -/
def ssh_poll_ctx_free (cb : CbBehavior) (fuel : Nat) (w : World) :
    Option (List Nat × World) :=
  if 0 < w.ctx.polls_allocated then
    (ssh_poll_ctx_free_loop cb fuel w 0 w.ctx.polls_used).map
      (fun r => (r.1, { r.2 with ctx := { r.2.ctx with pollptrs := [], pollfds := [] } }))
  else
    some ([], { w with ctx := { w.ctx with pollptrs := [], pollfds := [] } })

/-- Outcome of one `WaitForMultipleObjectsEx` call in the emulated Wait
Primitive: `WAIT_FAILED`, `WAIT_TIMEOUT`, `WAIT_IO_COMPLETION`, or
`WAIT_OBJECT_0 + k` for a fired handle. -/
inductive WaitRes where
  | failed : WaitRes
  | timedout : WaitRes
  | iocompletion : WaitRes
  | object : Nat → WaitRes
deriving DecidableEq, Repr

/-- Behaviour of the platform's blocking multi-handle wait: given the
current candidate handle set and a timeout it reports an outcome.  It is a
parameter of the model because the platform supplies it. -/
def Oracle : Type := List Int → Int → WaitRes

/-- The designated infinite timeout.  On the modelled platform `INFINITE`
is the all-ones 32-bit value, which through the signed/unsigned
conversions of the source behaves exactly like the `int` value `-1`; the
model uses `-1` for it, so the source's `timeout == -1` normalisation is
the identity. -/
def INFINITE : Int := -1

/-- The platform's maximum simultaneously-waitable handle count. -/
def MAXIMUM_WAIT_OBJECTS : Nat := 64

/-- Model of `poll_rest`, translated from the source.  With no handles, an
infinite timeout fails (`WAIT_FAILED`) and any other timeout just sleeps
and reports a timeout.  Otherwise the platform wait runs over the handle
set; a fired handle marks every record using that handle as ready
(`revents = events`), and under a zero timeout with several handles the
fired handle is removed and the rest is re-probed recursively, adding up
the fired count.  The third result component is the trace of platform-wait
invocations `(handle set, timeout)`, in order; `fuel` bounds the recursion
depth (the source's recursion is bounded by the handle count) and
exhaustion yields `none`. -/
def poll_rest (ora : Oracle) :
    Nat → List Int → List Pollfd → Int →
    Option (Int × List Pollfd × List (List Int × Int))
  | 0, _, _, _ => none
  | fuel + 1, handles, fds, timeout =>
    if handles.isEmpty then
      if timeout = INFINITE then
        some (-1, fds, [])
      else
        some (0, fds, [])
    else
      match ora handles timeout with
      | .failed => some (-1, fds, [(handles, timeout)])
      | .timedout => some (0, fds, [(handles, timeout)])
      | .iocompletion => some (0, fds, [(handles, timeout)])
      | .object k =>
        if k < handles.length then
          let fired := handles.getD k 0
          let fds2 := fds.map fun f =>
            if f.fd = fired then { f with revents := f.events } else f
          if timeout = 0 ∧ 1 < handles.length then
            match poll_rest ora fuel (handles.eraseIdx k) fds2 0 with
            | none => none
            | some (r, fds3, tr) =>
              if r < 0 then
                some (-1, fds3, (handles, timeout) :: tr)
              else
                some (r + 1, fds3, (handles, timeout) :: tr)
          else
            some (1, fds2, [(handles, timeout)])
        else
          some (0, fds, [(handles, timeout)])

/-- The handle-collection loop at the top of the emulated `ssh_poll`: every
record with a strictly positive descriptor contributes its handle once;
duplicates are skipped, and reaching the platform handle limit with yet
another distinct handle stops the scan, exactly as the source's `break`
does. -/
def buildHandles : List Pollfd → List Int → List Int
  | [], hs => hs
  | f :: rest, hs =>
    if 0 < f.fd then
      if f.fd ∈ hs then
        buildHandles rest hs
      else if hs.length = MAXIMUM_WAIT_OBJECTS then
        hs
      else
        buildHandles rest (hs ++ [f.fd])
    else
      buildHandles rest hs

/-- The waiting part of the emulated `ssh_poll`, after handle collection
and timeout normalisation: with more than one distinct handle a
zero-timeout probe runs first and, when it reports nothing ready and the
timeout is infinite or at least ten milliseconds, the wait is repeated
with the real timeout; with at most one handle a single wait with the real
timeout runs. -/
def ssh_poll_core (ora : Oracle) (fuel : Nat) (handles : List Int)
    (fds : List Pollfd) (t : Int) :
    Option (Int × List Pollfd × List (List Int × Int)) :=
  if 1 < handles.length then
    match poll_rest ora fuel handles fds 0 with
    | none => none
    | some (rc0, fds0, tr0) =>
      if rc0 = 0 ∧ (t = INFINITE ∨ 10 ≤ t) then
        match poll_rest ora fuel handles fds0 t with
        | none => none
        | some (rc1, fds1, tr1) => some (rc1, fds1, tr0 ++ tr1)
      else
        some (rc0, fds0, tr0)
  else
    poll_rest ora fuel handles fds t

/-- Model of the emulated `ssh_poll`.  A record count at or above the
platform limit fails at once with `-1` (`EINVAL`).  Otherwise the distinct
positive handles are collected, the timeout is normalised (`-1` means the
infinite value) and the waiting core runs; a negative outcome clears every
record's returned-events before surfacing.  The third result component is
the accumulated platform-wait trace. -/
def ssh_poll (ora : Oracle) (fuel : Nat) (fds : List Pollfd) (timeout : Int) :
    Option (Int × List Pollfd × List (List Int × Int)) :=
  if MAXIMUM_WAIT_OBJECTS ≤ fds.length then
    some (-1, fds, [])
  else
    match ssh_poll_core ora fuel (buildHandles fds []) fds
        (if timeout = -1 then INFINITE else timeout) with
    | none => none
    | some (rc, fdsF, tr) =>
      if rc < 0 then
        some (rc, fdsF.map (fun f => { f with revents := 0 }), tr)
      else
        some (rc, fdsF, tr)

/-! Concrete scenarios used by the claims. -/

/-- Two detached events with descriptors 10 and 11 next to a fresh context
with the default chunk size. -/
def wBase2 : World :=
  { events := [ssh_poll_new 10 1 0 0, ssh_poll_new 11 1 1 0],
    cid := 0, ctx := ssh_poll_ctx_new 0 }

/-- Both events attached: event 0 at slot 0, event 1 at slot 1. -/
def wAtt2 : World := (ssh_poll_ctx_add (ssh_poll_ctx_add wBase2 0).2 1).2

/-- Event 0 detached again, which swap-moves event 1 into slot 0. -/
def wRem2 : World := ssh_poll_ctx_remove wAtt2 0

/-- Three detached events with descriptors 10, 11, 12 next to a fresh
context with the default chunk size. -/
def wBase3 : World :=
  { events := [ssh_poll_new 10 1 0 0, ssh_poll_new 11 1 1 0, ssh_poll_new 12 1 2 0],
    cid := 0, ctx := ssh_poll_ctx_new 0 }

/-- All three events attached, at slots 0, 1, 2. -/
def wAtt3 : World :=
  (ssh_poll_ctx_add (ssh_poll_ctx_add (ssh_poll_ctx_add wBase3 0).2 1).2 2).2

/-- The canonical teardown callback: when the notified event is still
attached it detaches itself and reports the removal sentinel, otherwise it
does nothing and reports success. -/
def selfRemoveCb : CbBehavior := fun w pid _ _ =>
  if (getEvt w pid).ctx.isSome then (-1, ssh_poll_ctx_remove w pid) else (0, w)

/-- Three detached events with descriptors 10, 11, 12 next to a fresh
context with chunk size 2. -/
def wBase4 : World :=
  { events := [ssh_poll_new 10 1 0 0, ssh_poll_new 11 1 1 0, ssh_poll_new 12 1 2 0],
    cid := 0, ctx := ssh_poll_ctx_new 2 }

/-- Chunk-2 scenario after attaching the descriptor-10 event. -/
def wA1 : World := (ssh_poll_ctx_add wBase4 0).2

/-- Chunk-2 scenario after also attaching the descriptor-11 event. -/
def wA2 : World := (ssh_poll_ctx_add wA1 1).2

/-- Chunk-2 scenario after also attaching the descriptor-12 event. -/
def wA3 : World := (ssh_poll_ctx_add wA2 2).2

/-- Chunk-2 scenario after detaching the descriptor-11 event. -/
def wD4 : World := ssh_poll_ctx_remove wA3 1

/-- Chunk-2 scenario after further detaching the descriptor-10 event. -/
def wD4b : World := ssh_poll_ctx_remove wD4 0

/-- Claim C1: detaching an event that is not in the last live slot moves the
last live slot's event into the vacated slot but, contrary to the claim,
the source never updates the moved event's stored index (`ctx->pollptrs[i]->idx`
is not assigned).  Concretely: attach events 0 and 1, detach event 0; event
1 now lives at slot 0 while its stored index still reads 1, which is not
the vacated index and not even a live slot, so the context's event
sequence at event 1's stored position is not event 1. -/
theorem detach_leaves_moved_event_idx_stale :
    (getEvt wRem2 1).ctx = some 0 ∧
    (getEvt wRem2 1).fd_idx = 1 ∧
    wRem2.ctx.polls_used = 1 ∧
    ptrAt wRem2 0 = 1 ∧
    ¬ (getEvt wRem2 1).fd_idx.toNat < wRem2.ctx.polls_used := by
  decide

/-- Claim C3: tearing down a context holding three attached events, each of
whose callbacks detaches exactly itself and returns the removal sentinel
(the behaviour the spec's swap-removal-from-front order describes), does
NOT notify each event exactly once: because the detach of event 0
swap-moves event 2 into slot 0 without refreshing event 2's stored index,
event 2's own detach corrupts the live area, so the sweep notifies event 0
once, event 2 twice and event 1 never. -/
theorem teardown_three_events_notification_trace :
    wAtt3.ctx.polls_used = 3 ∧
    (ssh_poll_ctx_free selfRemoveCb 10 wAtt3).map Prod.fst = some [0, 2, 2] ∧
    [0, 2, 2].count 1 = 0 ∧
    [0, 2, 2].count 2 = 2 := by
  decide

/-- Claim C4, counterexample: in the chunk-2 scenario the capacities do grow
0, 2, 4 with three events attached, and detaching the descriptor-11 event
does swap-move the descriptor-12 event into slot 1 with two live entries
left; but the capacity stays 4, because the source shrinks only when the
slack strictly exceeds the chunk size, and the slack here only equals it. -/
theorem scenario_chunk2_no_shrink_at_slack_eq_chunk :
    wBase4.ctx.polls_allocated = 0 ∧
    wA1.ctx.polls_allocated = 2 ∧
    wA3.ctx.polls_allocated = 4 ∧
    wA3.ctx.polls_used = 3 ∧
    wD4.ctx.polls_used = 2 ∧
    ¬ wD4.ctx.polls_allocated = 2 := by
  decide

/-- Claim C4 as amended: the chunk-2 scenario grows the capacity 0, 2, 4
with `used = 3`; detaching the descriptor-11 event swap-moves the
descriptor-12 event into slot 1, leaves `used = 2` and keeps the capacity
at 4 (slack 2 does not strictly exceed the chunk size 2); one further
detach makes the slack 3 strictly exceed the chunk and the capacity then
shrinks to 2. -/
theorem scenario_chunk2_behavior :
    wBase4.ctx.polls_allocated = 0 ∧
    wA1.ctx.polls_allocated = 2 ∧
    wA2.ctx.polls_allocated = 2 ∧
    wA3.ctx.polls_allocated = 4 ∧
    wA3.ctx.polls_used = 3 ∧
    ptrAt wD4 1 = 2 ∧
    (pollfdAt wD4 1).fd = 12 ∧
    wD4.ctx.polls_used = 2 ∧
    wD4.ctx.polls_allocated = 4 ∧
    wD4b.ctx.polls_allocated = 2 := by
  decide

/-- Claim C7: attaching an event that already carries a context
back-reference fails with the already-attached error and mutates nothing:
the result is exactly `-1` next to the unchanged world. -/
theorem attach_already_attached_fails (w : World) (pid : Nat)
    (h : (getEvt w pid).ctx.isSome) :
    ssh_poll_ctx_add w pid = (-1, w) := by
  unfold ssh_poll_ctx_add
  simp [h]

/-- An event already attached to some context (identifier 3). -/
def wC7 : World :=
  { events := [{ ctx := some 3, fd_idx := 0, events := 0, cb := 0, cb_data := 0 }],
    cid := 0, ctx := ssh_poll_ctx_new 0 }

/-- Witness for `attach_already_attached_fails` at a concrete world. -/
theorem attach_already_attached_fails_witness :
    ssh_poll_ctx_add wC7 0 = (-1, wC7) :=
  attach_already_attached_fails wC7 0 (by decide)

/-- Claim C8: dispatching an empty context returns 0 at once, for every
Wait Primitive, every callback behaviour and every timeout (including the
infinite one), with the world untouched — in particular the result does
not depend on the Wait Primitive or the callbacks, so neither was
consulted. -/
theorem dispatch_empty_returns_zero (waitFn : WaitFn) (cb : CbBehavior)
    (fuel : Nat) (w : World) (timeout : Int)
    (h : w.ctx.polls_used = 0) :
    ssh_poll_ctx waitFn cb fuel w timeout = some (0, w) := by
  unfold ssh_poll_ctx
  simp [h]

/-- A Wait Primitive double that would report one ready record if consulted. -/
def waitW : WaitFn := fun fds _ _ => (1, fds)

/-- A callback behaviour that does nothing. -/
def cbZero : CbBehavior := fun w _ _ _ => (0, w)

/-- An empty context world. -/
def wEmpty : World := { events := [], cid := 0, ctx := ssh_poll_ctx_new 0 }

/-- Witness for `dispatch_empty_returns_zero` with the infinite timeout. -/
theorem dispatch_empty_returns_zero_witness :
    ssh_poll_ctx waitW cbZero 5 wEmpty (-1) = some (0, wEmpty) :=
  dispatch_empty_returns_zero waitW cbZero 5 wEmpty (-1) (by decide)

/-- Claim C2: one step of the dispatch walk at a slot with non-empty
returned-events.  A negative callback result keeps the index and continues
with the live count re-read from the context; any other result clears the
slot's returned-events and advances the index; the remaining-ready counter
drops by one in both cases; and the walk stops, returning the counter,
as soon as the counter is no longer positive or the index is no longer
below the (re-read) live count. -/
theorem dispatch_walk_step_contract (cb : CbBehavior) (fuel i used : Nat)
    (w : World) (rc : Int) :
    (i < used → 0 < rc → (pollfdAt w i).revents ≠ 0 →
      ssh_poll_ctx_loop cb (fuel + 1) w i used rc =
        (let res := cb w (ptrAt w i) (pollfdAt w i).fd (pollfdAt w i).revents
         if res.1 < 0 then
           ssh_poll_ctx_loop cb fuel res.2 i res.2.ctx.polls_used (rc - 1)
         else
           ssh_poll_ctx_loop cb fuel (clearReventsAt res.2 i) (i + 1) used (rc - 1))) ∧
    (¬(i < used ∧ 0 < rc) →
      ssh_poll_ctx_loop cb (fuel + 1) w i used rc = some (rc, w)) := by
  constructor
  · intro h1 h2 h3
    rw [ssh_poll_ctx_loop, if_pos ⟨h1, h2⟩, if_neg h3]
  · intro h
    rw [ssh_poll_ctx_loop, if_neg h]

/-- A one-entry world whose single slot reports a ready event. -/
def wC2 : World :=
  { events := [{ ctx := some 0, fd_idx := 0, events := 1, cb := 0, cb_data := 0 }],
    cid := 0,
    ctx := { pollptrs := [0], pollfds := [⟨10, 1, 1⟩],
             polls_allocated := 1, polls_used := 1, chunk_size := 5 } }

/-- Witness for `dispatch_walk_step_contract`: the processing step at a
ready slot and the stop condition, both at concrete inputs. -/
theorem dispatch_walk_step_contract_witness :
    (ssh_poll_ctx_loop cbZero 2 wC2 0 1 1 =
      (let res := cbZero wC2 (ptrAt wC2 0) (pollfdAt wC2 0).fd (pollfdAt wC2 0).revents
       if res.1 < 0 then
         ssh_poll_ctx_loop cbZero 1 res.2 0 res.2.ctx.polls_used (1 - 1)
       else
         ssh_poll_ctx_loop cbZero 1 (clearReventsAt res.2 0) (0 + 1) 1 (1 - 1))) ∧
    ssh_poll_ctx_loop cbZero 2 wC2 1 1 1 = some (1, wC2) :=
  ⟨(dispatch_walk_step_contract cbZero 1 0 1 wC2 1).1
      (by decide) (by decide) (by decide),
   (dispatch_walk_step_contract cbZero 1 1 1 wC2 1).2 (by decide)⟩

/-- Resizing a list always yields exactly the requested length. -/
theorem resizeList_length {α : Type} (l : List α) (n : Nat) (d : α) :
    (resizeList l n d).length = n := by
  simp [resizeList]
  omega

/-- Resizing down to at most the current length is a truncation. -/
theorem resizeList_of_le {α : Type} (l : List α) (m : Nat) (d : α)
    (h : m ≤ l.length) : resizeList l m d = l.take m := by
  unfold resizeList
  have h0 : m - l.length = 0 := by omega
  simp [h0]

/-- Growing a list and resizing back down to its own length restores it. -/
theorem resizeList_restore {α : Type} (l : List α) (n : Nat) (d : α)
    (h : l.length ≤ n) :
    resizeList (resizeList l n d) l.length d = l := by
  rw [resizeList_of_le _ _ _ (by rw [resizeList_length]; exact h)]
  unfold resizeList
  rw [List.take_take, min_eq_left h, List.take_left]

/-- Claim C5: when the resize reallocates the first backing store but the
second reallocation fails, the operation reports the out-of-memory failure
`-1`, the first store is reallocated back to the prior capacity with its
contents intact (for a growth attempt), the second store is untouched, and
the capacity and live counters keep their prior values. -/
theorem resize_partial_failure_rolls_back (ctx : SSH_POLL_CTX) (new_size : Nat)
    (hlen : ctx.pollptrs.length = ctx.polls_allocated)
    (hgrow : ctx.polls_allocated ≤ new_size) :
    (ssh_poll_ctx_resize true false ctx new_size).1 = -1 ∧
    (ssh_poll_ctx_resize true false ctx new_size).2.polls_allocated =
      ctx.polls_allocated ∧
    (ssh_poll_ctx_resize true false ctx new_size).2.polls_used =
      ctx.polls_used ∧
    (ssh_poll_ctx_resize true false ctx new_size).2.pollptrs = ctx.pollptrs ∧
    (ssh_poll_ctx_resize true false ctx new_size).2.pollfds = ctx.pollfds := by
  refine ⟨rfl, rfl, rfl, ?_, rfl⟩
  show resizeList (resizeList ctx.pollptrs new_size 0) ctx.polls_allocated 0 =
    ctx.pollptrs
  rw [← hlen]
  exact resizeList_restore _ _ _ (by rw [hlen]; exact hgrow)

/-- A one-entry context used by the resize witness. -/
def ctxC5 : SSH_POLL_CTX :=
  { pollptrs := [7], pollfds := [⟨10, 1, 0⟩],
    polls_allocated := 1, polls_used := 1, chunk_size := 5 }

/-- Witness for `resize_partial_failure_rolls_back` at a concrete context. -/
theorem resize_partial_failure_rolls_back_witness :
    (ssh_poll_ctx_resize true false ctxC5 3).1 = -1 ∧
    (ssh_poll_ctx_resize true false ctxC5 3).2.polls_allocated =
      ctxC5.polls_allocated ∧
    (ssh_poll_ctx_resize true false ctxC5 3).2.polls_used = ctxC5.polls_used ∧
    (ssh_poll_ctx_resize true false ctxC5 3).2.pollptrs = ctxC5.pollptrs ∧
    (ssh_poll_ctx_resize true false ctxC5 3).2.pollfds = ctxC5.pollfds :=
  resize_partial_failure_rolls_back ctxC5 3 (by decide) (by decide)

/-- Membership survives removing one index. -/
theorem mem_eraseIdx_imp {α : Type} (l : List α) (k : Nat) (a : α)
    (h : a ∈ l.eraseIdx k) : a ∈ l := by
  induction l generalizing k with
  | nil => simp [List.eraseIdx] at h
  | cons x xs ih =>
    cases k with
    | zero =>
      rw [List.eraseIdx] at h
      exact List.mem_cons_of_mem _ h
    | succ k =>
      rw [List.eraseIdx] at h
      rcases List.mem_cons.mp h with h | h
      · simp [h]
      · exact List.mem_cons_of_mem _ (ih k h)

/-- An in-range default read is a member of the list. -/
theorem getD_mem_of_lt {α : Type} (l : List α) (k : Nat) (d : α)
    (h : k < l.length) : l.getD k d ∈ l := by
  induction l generalizing k with
  | nil => simp at h
  | cons x xs ih =>
    cases k with
    | zero => rw [List.getD_cons_zero]; exact List.mem_cons_self x xs
    | succ k =>
      rw [List.getD_cons_succ]
      exact List.mem_cons_of_mem _ (ih k (by simpa using h))

/-- Default reads commute with mapping a default-preserving function. -/
theorem getD_map_pd0 (g : Pollfd → Pollfd) (hg : g pd0 = pd0)
    (l : List Pollfd) (j : Nat) :
    (l.map g).getD j pd0 = g (l.getD j pd0) := by
  induction l generalizing j with
  | nil => simp [hg]
  | cons x xs ih =>
    cases j with
    | zero => simp
    | succ j => simpa using ih j

/-- The handle-collection loop only ever adds strictly positive
descriptors, so every handle it yields above a positive accumulator is
strictly positive. -/
theorem buildHandles_pos (fds : List Pollfd) :
    ∀ (acc : List Int), (∀ h ∈ acc, 0 < h) →
      ∀ h ∈ buildHandles fds acc, 0 < h := by
  induction fds with
  | nil =>
    intro acc hacc h hm
    rw [buildHandles] at hm
    exact hacc h hm
  | cons f rest ih =>
    intro acc hacc h hm
    rw [buildHandles] at hm
    by_cases hf : 0 < f.fd
    · rw [if_pos hf] at hm
      by_cases hmem : f.fd ∈ acc
      · rw [if_pos hmem] at hm
        exact ih acc hacc h hm
      · rw [if_neg hmem] at hm
        by_cases hlen : acc.length = MAXIMUM_WAIT_OBJECTS
        · rw [if_pos hlen] at hm
          exact hacc h hm
        · rw [if_neg hlen] at hm
          refine ih (acc ++ [f.fd]) ?_ h hm
          intro x hx
          rcases List.mem_append.mp hx with hx | hx
          · exact hacc x hx
          · rw [List.mem_singleton.mp hx]
            exact hf
    · rw [if_neg hf] at hm
      exact ih acc hacc h hm

/-- With no strictly positive descriptor around, the handle-collection
loop adds nothing. -/
theorem buildHandles_of_nonpos (fds : List Pollfd) :
    ∀ (acc : List Int), (∀ f ∈ fds, f.fd ≤ 0) → buildHandles fds acc = acc := by
  induction fds with
  | nil =>
    intro acc _
    rw [buildHandles]
  | cons f rest ih =>
    intro acc hall
    rw [buildHandles,
      if_neg (by have := hall f (List.mem_cons_self f rest); omega)]
    exact ih acc (fun x hx => hall x (List.mem_cons_of_mem _ hx))


/-- Records whose descriptor is not strictly positive pass through
`poll_rest` completely untouched, as long as every candidate handle is
strictly positive: the ready-marking sweep only touches records whose
descriptor equals the fired (hence positive) handle. -/
theorem poll_rest_nonpos_unchanged (ora : Oracle) :
    ∀ (fuel : Nat) (handles : List Int) (fds : List Pollfd) (timeout : Int)
      (r : Int × List Pollfd × List (List Int × Int)) (j : Nat),
      (∀ h ∈ handles, 0 < h) →
      poll_rest ora fuel handles fds timeout = some r →
      (fds.getD j pd0).fd ≤ 0 →
      r.2.1.getD j pd0 = fds.getD j pd0 := by
  intro fuel
  induction fuel with
  | zero =>
    intro handles fds timeout r j hpos hr hfd
    simp [poll_rest] at hr
  | succ n ih =>
    intro handles fds timeout r j hpos hr hfd
    rw [poll_rest] at hr
    by_cases hemp : handles.isEmpty = true
    · rw [if_pos hemp] at hr
      split at hr <;>
        (simp only [Option.some.injEq] at hr; subst hr; rfl)
    · rw [if_neg hemp] at hr
      split at hr
      · simp only [Option.some.injEq] at hr; subst hr; rfl
      · simp only [Option.some.injEq] at hr; subst hr; rfl
      · simp only [Option.some.injEq] at hr; subst hr; rfl
      · rename_i k hora
        by_cases hk : k < handles.length
        · rw [if_pos hk] at hr
          simp only [] at hr
          have hfpos : 0 < handles.getD k 0 :=
            hpos _ (getD_mem_of_lt handles k 0 hk)
          have hmap : (List.map (fun f =>
              if f.fd = handles.getD k 0 then { f with revents := f.events }
              else f) fds).getD j pd0 = fds.getD j pd0 := by
            rw [getD_map_pd0 (fun f =>
                if f.fd = handles.getD k 0 then { f with revents := f.events }
                else f)
              (by
                show (if pd0.fd = handles.getD k 0
                      then { pd0 with revents := pd0.events } else pd0) = pd0
                rw [if_neg (show ¬ (pd0.fd = handles.getD k 0) from by
                  show ¬ ((0 : Int) = handles.getD k 0)
                  omega)])
              fds j]
            show (if (fds.getD j pd0).fd = handles.getD k 0
                  then { fds.getD j pd0 with revents := (fds.getD j pd0).events }
                  else fds.getD j pd0) = fds.getD j pd0
            rw [if_neg (show ¬ ((fds.getD j pd0).fd = handles.getD k 0)
              by omega)]
          by_cases hrec : timeout = 0 ∧ 1 < handles.length
          · rw [if_pos hrec] at hr
            rcases hq : poll_rest ora n (handles.eraseIdx k)
                (List.map (fun f =>
                  if f.fd = handles.getD k 0 then { f with revents := f.events }
                  else f) fds) 0 with _ | ⟨rv, fds3, tr⟩
            · rw [hq] at hr
              simp at hr
            · rw [hq] at hr
              have h3 := ih (handles.eraseIdx k)
                (List.map (fun f =>
                  if f.fd = handles.getD k 0 then { f with revents := f.events }
                  else f) fds) 0 (rv, fds3, tr) j
                (fun h hm => hpos h (mem_eraseIdx_imp handles k h hm)) hq
                (by rw [hmap]; exact hfd)
              have e2 : fds3.getD j pd0 = fds.getD j pd0 := by
                rw [show ((rv, fds3, tr) :
                    Int × List Pollfd × List (List Int × Int)).2.1 = fds3
                  from rfl] at h3
                rw [h3, hmap]
              split at hr
              · rename_i heqn
                exact absurd heqn (by simp)
              · rename_i rv2 fds32 tr2 heq2
                simp only [Option.some.injEq, Prod.mk.injEq] at heq2
                obtain ⟨hrv, hfds3, htr⟩ := heq2
                subst hrv
                subst hfds3
                subst htr
                split at hr <;>
                  (simp only [Option.some.injEq] at hr; subst hr; exact e2)
          · rw [if_neg hrec] at hr
            simp only [Option.some.injEq] at hr
            subst hr
            exact hmap
        · rw [if_neg hk] at hr
          simp only [Option.some.injEq] at hr
          subst hr
          rfl

/-- The waiting core also leaves records with non-strictly-positive
descriptors untouched when every candidate handle is strictly positive. -/
theorem ssh_poll_core_nonpos_unchanged (ora : Oracle) (fuel : Nat)
    (handles : List Int) (fds : List Pollfd) (t : Int)
    (r : Int × List Pollfd × List (List Int × Int)) (j : Nat)
    (hpos : ∀ h ∈ handles, 0 < h)
    (hr : ssh_poll_core ora fuel handles fds t = some r)
    (hfd : (fds.getD j pd0).fd ≤ 0) :
    r.2.1.getD j pd0 = fds.getD j pd0 := by
  unfold ssh_poll_core at hr
  split at hr
  · split at hr
    · exact absurd hr (by simp)
    · rename_i rc0 fds0 tr0 hp
      have e0 : fds0.getD j pd0 = fds.getD j pd0 :=
        poll_rest_nonpos_unchanged ora fuel handles fds 0 (rc0, fds0, tr0) j
          hpos hp hfd
      split at hr
      · split at hr
        · exact absurd hr (by simp)
        · rename_i rc1 fds1 tr1 hp1
          have e1 : fds1.getD j pd0 = fds0.getD j pd0 :=
            poll_rest_nonpos_unchanged ora fuel handles fds0 t (rc1, fds1, tr1)
              j hpos hp1 (by rw [e0]; exact hfd)
          simp only [Option.some.injEq] at hr
          subst hr
          exact e1.trans e0
      · simp only [Option.some.injEq] at hr
        subst hr
        exact e0
  · exact poll_rest_nonpos_unchanged ora fuel handles fds t r j hpos hr hfd

/-- Claim C9: the emulated Wait Primitive never puts a non-strictly-positive
descriptor into the handle set (every collected handle is strictly
positive), and a record whose descriptor is not strictly positive and
whose returned-events start empty still has empty returned-events when the
wait returns: only records with strictly positive descriptors can report
readiness. -/
theorem nonpositive_fd_never_ready (ora : Oracle) (fuel : Nat)
    (fds : List Pollfd) (timeout : Int) :
    (∀ h ∈ buildHandles fds [], 0 < h) ∧
    (∀ (j : Nat) (r : Int × List Pollfd × List (List Int × Int)),
      ssh_poll ora fuel fds timeout = some r →
      (fds.getD j pd0).fd ≤ 0 →
      (fds.getD j pd0).revents = 0 →
      (r.2.1.getD j pd0).revents = 0) := by
  have hpos : ∀ h ∈ buildHandles fds [], 0 < h :=
    buildHandles_pos fds [] (by simp)
  refine ⟨hpos, ?_⟩
  intro j r hr hfd hrev
  unfold ssh_poll at hr
  split at hr
  · simp only [Option.some.injEq] at hr
    subst hr
    exact hrev
  · split at hr
    · exact absurd hr (by simp)
    · rename_i rc fdsF tr hcore
      have e := ssh_poll_core_nonpos_unchanged ora fuel (buildHandles fds [])
        fds (if timeout = -1 then INFINITE else timeout) (rc, fdsF, tr) j
        hpos hcore hfd
      split at hr <;> (simp only [Option.some.injEq] at hr; subst hr)
      · rw [show ((rc, fdsF.map (fun f => { f with revents := 0 }), tr) :
            Int × List Pollfd × List (List Int × Int)).2.1 =
            fdsF.map (fun f => { f with revents := 0 }) from rfl]
        rw [getD_map_pd0 (fun f => { f with revents := 0 }) rfl fdsF j]
      · rw [show ((rc, fdsF, tr) :
            Int × List Pollfd × List (List Int × Int)).2.1 = fdsF from rfl]
        rw [e]
        exact hrev

/-- A two-record input whose first record has a non-positive descriptor. -/
def fdsC9 : List Pollfd := [⟨0, 1, 0⟩, ⟨3, 1, 0⟩]

/-- An oracle that always reports a timeout. -/
def oraT : Oracle := fun _ _ => WaitRes.timedout

/-- Witness for `nonpositive_fd_never_ready` at a concrete input: the only
handle collected is the strictly positive descriptor 3, and the
non-positive record 0 reports no readiness. -/
theorem nonpositive_fd_never_ready_witness :
    (∀ h ∈ buildHandles fdsC9 [], 0 < h) ∧
    (((0 : Int), fdsC9, [([(3 : Int)], (0 : Int))]).2.1.getD 0 pd0).revents = 0 :=
  ⟨(nonpositive_fd_never_ready oraT 2 fdsC9 0).1,
   (nonpositive_fd_never_ready oraT 2 fdsC9 0).2 0
     (0, fdsC9, [([(3 : Int)], (0 : Int))])
     (by decide) (by decide) (by decide)⟩

/-- A `poll_rest` call with a non-empty handle set and a non-zero timeout
performs exactly one platform wait, with that handle set and that
timeout (the peel-off recursion only happens under a zero timeout). -/
theorem poll_rest_trace_single (ora : Oracle) (n : Nat) (handles : List Int)
    (fds : List Pollfd) (t : Int) (hne : handles ≠ []) (ht0 : t ≠ 0) :
    (poll_rest ora (n + 1) handles fds t).map (fun r => r.2.2) =
      some [(handles, t)] := by
  rw [poll_rest]
  rw [if_neg (by simpa using hne)]
  split
  · rfl
  · rfl
  · rfl
  · rename_i k hora
    split
    · simp only []
      rw [if_neg (by simp [ht0])]
      rfl
    · rfl

/-- When the zero-timeout probe over more than one handle reports nothing
ready and the timeout qualifies (infinite or at least ten milliseconds),
the waiting core runs one more platform wait with the real timeout: its
trace is the probe's trace followed by exactly one wait over the same
handles at the real timeout. -/
theorem ssh_poll_core_repeat (ora : Oracle) (n : Nat) (handles : List Int)
    (fds fds0 : List Pollfd) (t : Int) (tr0 : List (List Int × Int))
    (hmulti : 1 < handles.length)
    (hprobe : poll_rest ora (n + 1) handles fds 0 = some (0, fds0, tr0))
    (hcond : t = INFINITE ∨ 10 ≤ t) (ht0 : t ≠ 0) :
    ∃ rc1 fds1, ssh_poll_core ora (n + 1) handles fds t =
      some (rc1, fds1, tr0 ++ [(handles, t)]) := by
  have hne : handles ≠ [] := by
    intro h
    rw [h] at hmulti
    simp at hmulti
  rcases hs : poll_rest ora (n + 1) handles fds0 t with _ | ⟨rc1, fds1, tr1⟩
  · have h2 := poll_rest_trace_single ora n handles fds0 t hne ht0
    rw [hs] at h2
    simp at h2
  · have htr : tr1 = [(handles, t)] := by
      have h2 := poll_rest_trace_single ora n handles fds0 t hne ht0
      rw [hs] at h2
      simpa using h2
    subst htr
    refine ⟨rc1, fds1, ?_⟩
    unfold ssh_poll_core
    rw [if_pos hmulti, hprobe]
    show (if (0 : Int) = 0 ∧ (t = INFINITE ∨ 10 ≤ t) then
            match poll_rest ora (n + 1) handles fds0 t with
            | none => none
            | some (rc2, fds2, tr2) => some (rc2, fds2, tr0 ++ tr2)
          else some ((0 : Int), fds0, tr0)) =
        some (rc1, fds1, tr0 ++ [(handles, t)])
    rw [if_pos (show (0 : Int) = 0 ∧ (t = INFINITE ∨ 10 ≤ t) from ⟨rfl, hcond⟩)]
    rw [hs]

/-- Claim C6 as amended: in the emulated Wait Primitive, when there is more
than one distinct handle, the zero-timeout probe reports nothing ready and
the caller's timeout is the infinite value or at least ten milliseconds,
the wait is repeated with the caller's real timeout: the platform-wait
trace is the probe's trace followed by exactly one wait over the same
handles at the real timeout. -/
theorem probe_then_full_timeout_repeat (ora : Oracle) (fuel : Nat)
    (fds fds0 : List Pollfd) (timeout : Int) (tr0 : List (List Int × Int))
    (hlen : fds.length < MAXIMUM_WAIT_OBJECTS)
    (hmulti : 1 < (buildHandles fds []).length)
    (hprobe : poll_rest ora fuel (buildHandles fds []) fds 0 =
      some (0, fds0, tr0))
    (ht : timeout = -1 ∨ 10 ≤ timeout) :
    ∃ rc1 fds1, ssh_poll ora fuel fds timeout =
      some (rc1, fds1, tr0 ++ [(buildHandles fds [], timeout)]) := by
  obtain ⟨n, rfl⟩ : ∃ n, fuel = n + 1 := by
    cases fuel with
    | zero => simp [poll_rest] at hprobe
    | succ n => exact ⟨n, rfl⟩
  have hT : (if timeout = -1 then INFINITE else timeout) = timeout := by
    unfold INFINITE
    split <;> omega
  have hcond : timeout = INFINITE ∨ 10 ≤ timeout := by
    unfold INFINITE
    exact ht
  have ht0 : timeout ≠ 0 := by
    rcases ht with h | h <;> omega
  obtain ⟨rc1, fds1, hcore⟩ := ssh_poll_core_repeat ora n
    (buildHandles fds []) fds fds0 timeout tr0 hmulti hprobe hcond ht0
  unfold ssh_poll
  rw [if_neg (Nat.not_le.mpr hlen), hT, hcore]
  by_cases hneg : rc1 < 0
  · refine ⟨rc1, fds1.map (fun f => { f with revents := 0 }), ?_⟩
    show (if rc1 < 0 then
            some (rc1, fds1.map (fun f => { f with revents := 0 }),
              tr0 ++ [(buildHandles fds [], timeout)])
          else some (rc1, fds1, tr0 ++ [(buildHandles fds [], timeout)])) =
        some (rc1, fds1.map (fun f => { f with revents := 0 }),
          tr0 ++ [(buildHandles fds [], timeout)])
    rw [if_pos hneg]
  · refine ⟨rc1, fds1, ?_⟩
    show (if rc1 < 0 then
            some (rc1, fds1.map (fun f => { f with revents := 0 }),
              tr0 ++ [(buildHandles fds [], timeout)])
          else some (rc1, fds1, tr0 ++ [(buildHandles fds [], timeout)])) =
        some (rc1, fds1, tr0 ++ [(buildHandles fds [], timeout)])
    rw [if_neg hneg]

/-- An oracle whose zero-timeout waits report nothing ready while any
other wait fires the first handle. -/
def oraC6 : Oracle := fun _ t =>
  if t = 0 then WaitRes.timedout else WaitRes.object 0

/-- Two records with distinct strictly positive descriptors 1 and 2. -/
def fdsC6 : List Pollfd := [⟨1, 1, 0⟩, ⟨2, 1, 0⟩]

/-- Claim C6, counterexample: with two distinct handles, a probe that
reports nothing ready and the positive caller timeout 5, the emulated
wait is NOT repeated with the real timeout — the whole platform-wait
trace is the single zero-timeout probe, although a wait at timeout 5
would have fired a handle (the source ignores positive timeouts below
ten milliseconds). -/
theorem small_timeout_probe_not_repeated :
    1 < (buildHandles fdsC6 []).length ∧
    poll_rest oraC6 5 (buildHandles fdsC6 []) fdsC6 0 =
      some (0, fdsC6, [([1, 2], 0)]) ∧
    (5 : Int) ≠ 0 ∧
    ssh_poll oraC6 5 fdsC6 5 = some (0, fdsC6, [([1, 2], 0)]) ∧
    (poll_rest oraC6 5 (buildHandles fdsC6 []) fdsC6 5).map (fun r => r.1) =
      some 1 :=
  ⟨by decide, by decide, by decide, by decide, by decide⟩

/-- Witness for `probe_then_full_timeout_repeat`: with an all-timeout
oracle and caller timeout 10, the trace is the probe followed by the
full-timeout wait. -/
theorem probe_then_full_timeout_repeat_witness :
    ∃ rc1 fds1, ssh_poll oraT 3 fdsC6 10 =
      some (rc1, fds1, [([1, 2], 0)] ++ [([1, 2], 10)]) :=
  probe_then_full_timeout_repeat oraT 3 fdsC6 fdsC6 10 [([1, 2], 0)]
    (by decide) (by decide) (by decide) (by decide)

/-- Sixty-four records with descriptor 0 and a non-zero returned-events
value left over from before the call. -/
def fds64 : List Pollfd := List.replicate 64 ⟨0, 0, 1⟩

/-- Claim C10, counterexample: a call with the infinite timeout and no
strictly positive descriptor whose record count reaches the platform
limit takes the invalid-argument early return: it does return `-1`, but
the returned-events fields are NOT cleared (the clearing loop only runs
after a wait failure, and this return happens before any wait). -/
theorem einval_path_keeps_revents :
    (∀ f ∈ fds64, f.fd ≤ 0) ∧
    ssh_poll oraT 5 fds64 (-1) = some (-1, fds64, []) ∧
    (ssh_poll oraT 5 fds64 (-1)).map (fun r => (r.2.1.getD 0 pd0).revents) =
      some 1 :=
  ⟨by decide, by decide, by decide⟩

/-- Claim C10 as amended: a call with the infinite timeout, fewer records
than the platform handle limit and no strictly positive descriptor builds
an empty handle set, so the single-handle path waits on nothing with the
infinite timeout, which fails (`WAIT_FAILED`) without blocking: the call
returns `-1` with every returned-events field cleared and no platform
wait ever invoked (the trace is empty). -/
theorem empty_handle_set_infinite_fails (ora : Oracle) (fuel : Nat)
    (fds : List Pollfd) (hfuel : 0 < fuel)
    (hlen : fds.length < MAXIMUM_WAIT_OBJECTS)
    (hnp : ∀ f ∈ fds, f.fd ≤ 0) :
    ssh_poll ora fuel fds (-1) =
      some (-1, fds.map (fun f => { f with revents := 0 }), []) := by
  obtain ⟨n, rfl⟩ : ∃ n, fuel = n + 1 := ⟨fuel - 1, by omega⟩
  unfold ssh_poll
  rw [if_neg (Nat.not_le.mpr hlen)]
  rw [buildHandles_of_nonpos fds [] hnp]
  unfold ssh_poll_core
  rw [if_neg (by simp)]
  rw [poll_rest]
  rw [if_pos (by rfl)]
  rw [if_pos (show (if (-1 : Int) = -1 then INFINITE else -1) = INFINITE from
    by rw [if_pos rfl])]
  show (if (-1 : Int) < 0 then
          some ((-1 : Int), fds.map (fun f => { f with revents := 0 }),
            ([] : List (List Int × Int)))
        else some ((-1 : Int), fds, ([] : List (List Int × Int)))) =
      some (-1, fds.map (fun f => { f with revents := 0 }), [])
  rw [if_pos (by norm_num)]

/-- Witness for `empty_handle_set_infinite_fails`: one record with
descriptor 0 and stale returned-events 7 comes back with returned-events
cleared and result `-1`. -/
theorem empty_handle_set_infinite_fails_witness :
    ssh_poll oraT 1 [⟨0, 3, 7⟩] (-1) = some (-1, [⟨0, 3, 0⟩], []) := by
  have h := empty_handle_set_infinite_fails oraT 1 [⟨0, 3, 7⟩]
    (by decide) (by decide) (by decide)
  simpa using h
